import Mathlib

/-!
Verification of the CORS middleware of yaslama/go-json-rest
(`src/rest/cors.go`), shallowly embedded in Lean 4.

The embedding follows the Go source line by line:

* `rest.CorsMiddleware` mirrors the Go struct, with the two lazily
  materialised private maps (`allowedMethods`, `allowedHeaders`)
  modelled as `Option (List String)` (`none` is Go's `nil` map;
  the key list is deduplicated by construction, so it is exactly
  the key set of the Go map).
* `rest.CorsMiddleware.handleCors` is the body of the closure returned
  by `MiddlewareFunc`, with the `corsInfo := request.GetCorsInfo()`
  first line factored out as an explicit argument, and the mutation of
  the receiver made explicit in the returned `HandleResult`.
* Response-header writing (`Header().Add` / `Header().Set`) is modelled
  on an association list of `(name, value)` pairs; `Add` appends one
  pair, `Set` removes every pair with the key and appends one.
* `string(mw.AccessControlMaxAge)` is Go's integer-to-string conversion,
  which yields the UTF-8 encoding of the code point, not a decimal
  numeral; `goStringOfInt` embeds that conversion faithfully.
* `Request.GetCorsInfo` and `rest.Error` live in files of the
  repository that are not part of the sources here; they are modelled
  from the specification (doc comments on the definitions say exactly
  what was modelled).
-/

namespace rest

/-- Go `strings.ToUpper` restricted to the ASCII fragment exercised by
HTTP method names: upper-case every character. -/
def toUpper (s : String) : String :=
  String.mk (s.data.map Char.toUpper)

/-- Go `strings.TrimSpace`: drop leading and trailing whitespace. -/
def trimChars (l : List Char) : List Char :=
  ((l.dropWhile Char.isWhitespace).reverse.dropWhile Char.isWhitespace).reverse

/-- Go `strings.TrimSpace` on a string. -/
def trim (s : String) : String :=
  String.mk (trimChars s.data)

/-- Go `strings.Split(s, ",")` on the character list: split at every
comma; the empty list yields one empty field. -/
def splitComma : List Char → List (List Char)
  | [] => [[]]
  | c :: cs =>
    match splitComma cs with
    | [] => [[]]
    | cur :: rest => if c = ',' then [] :: cur :: rest else (c :: cur) :: rest

/-- Go `strings.Split(s, ",")`. -/
def splitOnComma (s : String) : List String :=
  (splitComma s.data).map String.mk

/-- Go `net/textproto` `validHeaderFieldByte`: ASCII letters, digits and
the token symbols `!#$%&'*+-.^_` backtick `|~`. -/
def validHeaderFieldChar (c : Char) : Bool :=
  c.isAlphanum ||
    [33, 35, 36, 37, 38, 39, 42, 43, 45, 46, 94, 95, 96, 124, 126].contains c.toNat

/-- The casing loop of Go `net/textproto` `canonicalMIMEHeaderKey`:
upper-case the first character and every character following a hyphen,
lower-case the rest. -/
def canonicalChars : Bool → List Char → List Char
  | _, [] => []
  | upper, c :: cs =>
    let d := if upper then c.toUpper else c.toLower
    d :: canonicalChars (d == '-') cs

/-- Go `net/http.CanonicalHeaderKey` (via
`textproto.CanonicalMIMEHeaderKey`): if every character is a valid
header-field character, canonicalise the casing, otherwise return the
string unchanged. -/
def CanonicalHeaderKey (s : String) : String :=
  if s.data.all validHeaderFieldChar then
    String.mk (canonicalChars true s.data)
  else s

/-- Go conversion `string(i)` for an integer `i`: the UTF-8 encoding of
the code point `i`, or `"�"` when `i` is not a valid code point.
This is what `cors.go` line 102 applies to `mw.AccessControlMaxAge`; it
is not a decimal representation. -/
def goStringOfInt (n : Int) : String :=
  if 0 ≤ n ∧ (n < 0xD800 ∨ 0xE000 ≤ n) ∧ n < 0x110000 then
    String.mk [Char.ofNat n.toNat]
  else
    String.mk [Char.ofNat 0xFFFD]

/-- The CORS-relevant raw fields of an incoming HTTP request: the
method and the values of the `Origin`, `Access-Control-Request-Method`
and `Access-Control-Request-Headers` headers (the last one may carry
several raw values; an absent header is the empty string / empty
list). -/
structure Request where
  Method : String
  OriginHdr : String
  ACRMHdr : String
  ACRHHdr : List String
deriving Repr, DecidableEq

/-- `rest.CorsInfo`: the derived, read-only CORS view of a request. -/
structure CorsInfo where
  IsCors : Bool
  IsPreflight : Bool
  Origin : String
  AccessControlRequestMethod : String
  AccessControlRequestHeaders : List String
deriving Repr, DecidableEq

/-- Modelled from the spec: `Request.GetCorsInfo` is repository code
that is not among the sources here. Following the spec: `isCors` is the
presence of a non-empty `Origin` header; `isPreflight` is `isCors` and
method `OPTIONS` and a non-empty `Access-Control-Request-Method`
header; `requestedMethod` is compared upper-cased (step 4b — since
`MiddlewareFunc` in `cors.go` looks the field up verbatim, the
upper-casing lives in this derivation, as the comment on
`AllowedMethods` in `cors.go` also indicates); `requestedHeaders` are
the canonical-case names from `Access-Control-Request-Headers`,
comma-split and trimmed. -/
def GetCorsInfo (r : Request) : CorsInfo :=
  { IsCors := r.OriginHdr != ""
    IsPreflight := r.OriginHdr != "" && r.Method == "OPTIONS" && r.ACRMHdr != ""
    Origin := r.OriginHdr
    AccessControlRequestMethod := toUpper r.ACRMHdr
    AccessControlRequestHeaders :=
      r.ACRHHdr.flatMap fun raw =>
        (splitOnComma raw).map fun h => CanonicalHeaderKey (trim h) }

/-- A Go `map[string]bool` used as a set, modelled by its (duplicate-free)
key list: inserting an already-present key is a no-op. -/
def mapInsert (m : List String) (k : String) : List String :=
  if k ∈ m then m else m ++ [k]

/-- Go map lookup `m[k]` on a set-like `map[string]bool`: `true` exactly
when the key is present. -/
def mapLookup (m : List String) (k : String) : Bool :=
  decide (k ∈ m)

/-- `rest.CorsMiddleware`: the two private lazily-derived maps, then
the public configuration fields, exactly as in `cors.go`. -/
structure CorsMiddleware where
  allowedMethods : Option (List String)
  allowedHeaders : Option (List String)
  RejectNonCorsRequests : Bool
  OriginValidator : String → Request → Bool
  AllowedMethods : List String
  AllowedHeaders : List String
  AccessControlAllowCredentials : Bool
  AccessControlMaxAge : Int

/-- The map built by the loop at `cors.go` lines 66-70: the upper-cased
configured allowed methods. -/
def derivedMethods (mw : CorsMiddleware) : List String :=
  mw.AllowedMethods.foldl (fun m a => mapInsert m (toUpper a)) []

/-- The map built by the loop at `cors.go` lines 79-84: the
canonical-cased configured allowed headers. -/
def derivedHeaders (mw : CorsMiddleware) : List String :=
  mw.AllowedHeaders.foldl (fun m a => mapInsert m (CanonicalHeaderKey a)) []

/-- The allowed-methods map the handler consults: the stored map if it
was already materialised (`mw.allowedMethods != nil`), otherwise the
one freshly built from `AllowedMethods`. -/
def CorsMiddleware.methodsMap (mw : CorsMiddleware) : List String :=
  match mw.allowedMethods with
  | none => derivedMethods mw
  | some m => m

/-- The allowed-headers map the handler consults: the stored map if it
was already materialised, otherwise the one freshly built from
`AllowedHeaders`. -/
def CorsMiddleware.headersMap (mw : CorsMiddleware) : List String :=
  match mw.allowedHeaders with
  | none => derivedHeaders mw
  | some m => m

/-- Response headers: a list of `(name, value)` pairs in the order they
were written. -/
abbrev Headers := List (String × String)

/-- Go `Header().Add`: append one `(name, value)` pair. -/
def headerAdd (hs : Headers) (k v : String) : Headers :=
  hs ++ [(k, v)]

/-- Go `Header().Set`: drop every pair with the key, keep one value. -/
def headerSet (hs : Headers) (k v : String) : Headers :=
  hs.filter (fun p => p.1 != k) ++ [(k, v)]

/-- `Add` each of `vs` in turn under the key `k` (the range-over-map
loops at `cors.go` lines 92-97). -/
def addAll (hs : Headers) (k : String) (vs : List String) : Headers :=
  vs.foldl (fun acc v => headerAdd acc k v) hs

/-- The values carried by the (multi-valued) header `k`, in order. -/
def headerValues (hs : Headers) (k : String) : List String :=
  (hs.filter fun p => p.1 == k).map Prod.snd

/-- Everything one call of the middleware's handler produces: the
receiver after its (possible) map mutations, the response headers it
wrote, the status and body it wrote itself (`none` when it wrote
neither and delegated), and whether it invoked the wrapped handler. -/
structure HandleResult where
  mw : CorsMiddleware
  headers : Headers
  status : Option Nat
  body : Option String
  invokedNext : Bool

/-- Modelled from the spec: `rest.Error` is repository code that is not
among the sources here. Following the spec, a rejection is terminal: it
responds with the given HTTP status and the short plain-text reason,
adds no CORS headers, and the continuation is not invoked. -/
def Error (mw : CorsMiddleware) (message : String) (code : Nat) : HandleResult :=
  { mw := mw, headers := [], status := some code, body := some message,
    invokedNext := false }

/-- The body of the closure returned by `CorsMiddleware.MiddlewareFunc`
(`cors.go` lines 41-117), with `corsInfo := request.GetCorsInfo()`
factored out as an argument. `mw1`/`mw2` are the receiver after the
lazy materialisation of `allowedMethods` / `allowedHeaders` (in Go a
field assignment on `mw`). -/
def CorsMiddleware.handleCors (mw : CorsMiddleware) (request : Request)
    (corsInfo : CorsInfo) : HandleResult :=
  if !corsInfo.IsCors then
    if mw.RejectNonCorsRequests then
      Error mw "Non CORS request" 403
    else
      { mw := mw, headers := [], status := none, body := none, invokedNext := true }
  else if mw.OriginValidator corsInfo.Origin request == false then
    Error mw "Invalid Origin" 403
  else if corsInfo.IsPreflight then
    let methods := mw.methodsMap
    let mw1 := { mw with allowedMethods := some methods }
    if mapLookup methods corsInfo.AccessControlRequestMethod == false then
      Error mw1 "Invalid Preflight Request" 403
    else
      let hdrs := mw1.headersMap
      let mw2 := { mw1 with allowedHeaders := some hdrs }
      if corsInfo.AccessControlRequestHeaders.any
          (fun h => mapLookup hdrs h == false) then
        Error mw2 "Invalid Preflight Request" 403
      else
        let h1 := addAll [] "Access-Control-Allow-Methods" methods
        let h2 := addAll h1 "Access-Control-Allow-Headers" hdrs
        let h3 := headerSet h2 "Access-Control-Allow-Origin" corsInfo.Origin
        let h4 := if mw2.AccessControlAllowCredentials then
            headerSet h3 "Access-Control-Allow-Credentials" "true"
          else h3
        let h5 := headerSet h4 "Access-Control-Max-Age"
            (goStringOfInt mw2.AccessControlMaxAge)
        { mw := mw2, headers := h5, status := some 200, body := none,
          invokedNext := false }
  else
    let h1 := headerSet [] "Access-Control-Expose-Headers" "X-Powered-By"
    let h2 := headerSet h1 "Access-Control-Allow-Origin" corsInfo.Origin
    let h3 := if mw.AccessControlAllowCredentials then
        headerSet h2 "Access-Control-Allow-Credentials" "true"
      else h2
    { mw := mw, headers := h3, status := none, body := none, invokedNext := true }

/-- The full handler returned by `MiddlewareFunc`: derive the CORS info
from the request, then run the negotiation. -/
def CorsMiddleware.middlewareFunc (mw : CorsMiddleware) (request : Request) :
    HandleResult :=
  mw.handleCors request (GetCorsInfo request)

/-- The state invariant of a middleware instance: each derived map is
either still `nil` or exactly the set derived from the corresponding
configured list. -/
def CorsMiddleware.Inv (mw : CorsMiddleware) : Prop :=
  (mw.allowedMethods = none ∨ mw.allowedMethods = some (derivedMethods mw)) ∧
  (mw.allowedHeaders = none ∨ mw.allowedHeaders = some (derivedHeaders mw))

/-- The headers written on the successful-preflight path
(`cors.go` lines 92-102). -/
def preflightOkHeaders (methods hdrs : List String) (origin : String)
    (creds : Bool) (maxAge : Int) : Headers :=
  let h1 := addAll [] "Access-Control-Allow-Methods" methods
  let h2 := addAll h1 "Access-Control-Allow-Headers" hdrs
  let h3 := headerSet h2 "Access-Control-Allow-Origin" origin
  let h4 := if creds then headerSet h3 "Access-Control-Allow-Credentials" "true"
    else h3
  headerSet h4 "Access-Control-Max-Age" (goStringOfInt maxAge)

/-- The headers written on the simple (non-preflight) CORS path
(`cors.go` lines 106-110). -/
def simpleHeaders (origin : String) (creds : Bool) : Headers :=
  let h1 := headerSet [] "Access-Control-Expose-Headers" "X-Powered-By"
  let h2 := headerSet h1 "Access-Control-Allow-Origin" origin
  if creds then headerSet h2 "Access-Control-Allow-Credentials" "true" else h2

/-- An origin validator accepting every origin. -/
def vTrue : String → Request → Bool := fun _ _ => true

/-- An origin validator rejecting every origin. -/
def vFalse : String → Request → Bool := fun _ _ => false

/-- A sample middleware configuration: accept-all validator, methods
`GET`/`POST`, header `X-Custom`, credentials on, max age 3600 s, maps
not yet materialised. -/
def mwEx : CorsMiddleware :=
  { allowedMethods := none, allowedHeaders := none,
    RejectNonCorsRequests := false,
    OriginValidator := vTrue,
    AllowedMethods := ["GET", "POST"],
    AllowedHeaders := ["X-Custom"],
    AccessControlAllowCredentials := true,
    AccessControlMaxAge := 3600 }

/-- `mwEx` with non-CORS requests rejected. -/
def mwRejectEx : CorsMiddleware := { mwEx with RejectNonCorsRequests := true }

/-- `mwEx` with a reject-all origin validator. -/
def mwValFalseEx : CorsMiddleware := { mwEx with OriginValidator := vFalse }

/-- A sample preflight CORS view: requested method `POST`, requested
header `X-Custom`. -/
def ciPf : CorsInfo :=
  { IsCors := true, IsPreflight := true, Origin := "http://a.com",
    AccessControlRequestMethod := "POST",
    AccessControlRequestHeaders := ["X-Custom"] }

/-- A sample simple (non-preflight) CORS view. -/
def ciSimple : CorsInfo :=
  { IsCors := true, IsPreflight := false, Origin := "http://a.com",
    AccessControlRequestMethod := "", AccessControlRequestHeaders := [] }

/-- A sample non-CORS view. -/
def ciNonCors : CorsInfo :=
  { IsCors := false, IsPreflight := false, Origin := "",
    AccessControlRequestMethod := "", AccessControlRequestHeaders := [] }

/-- A sample raw preflight request, with the requested method and
header in lower case. -/
def reqPf : Request :=
  { Method := "OPTIONS", OriginHdr := "http://a.com", ACRMHdr := "post",
    ACRHHdr := ["x-custom"] }

/-- A sample raw preflight request asking for a method that is not
whitelisted. -/
def reqPfBad : Request :=
  { Method := "OPTIONS", OriginHdr := "http://a.com", ACRMHdr := "DELETE",
    ACRHHdr := [] }

/-! ### Lemmas about the set-like maps -/

theorem mem_mapInsert {m : List String} {k v : String} :
    v ∈ mapInsert m k ↔ v ∈ m ∨ v = k := by
  by_cases hk : k ∈ m
  · rw [mapInsert, if_pos hk]
    constructor
    · exact Or.inl
    · rintro (h | rfl)
      · exact h
      · exact hk
  · rw [mapInsert, if_neg hk]
    simp

theorem mem_foldl_mapInsert (f : String → String) (l acc : List String)
    (v : String) :
    v ∈ l.foldl (fun m a => mapInsert m (f a)) acc ↔
      v ∈ acc ∨ ∃ a ∈ l, f a = v := by
  induction l generalizing acc with
  | nil => simp
  | cons x xs ih =>
    simp only [List.foldl_cons, ih, mem_mapInsert, List.mem_cons]
    constructor
    · rintro ((h | rfl) | ⟨a, ha, rfl⟩)
      · exact Or.inl h
      · exact Or.inr ⟨x, Or.inl rfl, rfl⟩
      · exact Or.inr ⟨a, Or.inr ha, rfl⟩
    · rintro (h | ⟨a, (rfl | ha), rfl⟩)
      · exact Or.inl (Or.inl h)
      · exact Or.inl (Or.inr rfl)
      · exact Or.inr ⟨a, ha, rfl⟩

theorem mem_derivedMethods {mw : CorsMiddleware} {v : String} :
    v ∈ derivedMethods mw ↔ ∃ a ∈ mw.AllowedMethods, toUpper a = v := by
  unfold derivedMethods
  rw [mem_foldl_mapInsert]
  simp

theorem mem_derivedHeaders {mw : CorsMiddleware} {v : String} :
    v ∈ derivedHeaders mw ↔ ∃ a ∈ mw.AllowedHeaders, CanonicalHeaderKey a = v := by
  unfold derivedHeaders
  rw [mem_foldl_mapInsert]
  simp

theorem mapLookup_eq_true {m : List String} {k : String} :
    mapLookup m k = true ↔ k ∈ m := by
  simp [mapLookup]

theorem mapLookup_eq_false {m : List String} {k : String} :
    mapLookup m k = false ↔ k ∉ m := by
  simp [mapLookup]

/-! ### Lemmas about header writing -/

theorem headerValues_append (hs1 hs2 : Headers) (k : String) :
    headerValues (hs1 ++ hs2) k = headerValues hs1 k ++ headerValues hs2 k := by
  simp [headerValues]

theorem headerValues_headerSet_self (hs : Headers) (k v : String) :
    headerValues (headerSet hs k v) k = [v] := by
  have hnil : ∀ l : Headers,
      (l.filter (fun p => p.1 != k)).filter (fun p => p.1 == k) = [] := by
    intro l
    induction l with
    | nil => rfl
    | cons x xs ih =>
      by_cases hx : x.1 = k <;> simp [List.filter_cons, hx, ih]
  simp [headerSet, headerValues, List.filter_append, List.map_append,
    List.filter_cons, hnil]

theorem headerValues_headerSet_ne (hs : Headers) (k v k' : String)
    (h : k' ≠ k) :
    headerValues (headerSet hs k v) k' = headerValues hs k' := by
  have h2 : ∀ l : Headers,
      (l.filter (fun p => p.1 != k)).filter (fun p => p.1 == k') =
        l.filter (fun p => p.1 == k') := by
    intro l
    induction l with
    | nil => rfl
    | cons x xs ih =>
      by_cases hx : x.1 = k
      · have hx' : ¬ x.1 = k' := by rw [hx]; exact fun hk => h hk.symm
        simp [List.filter_cons, hx, hx', ih, Ne.symm h]
      · by_cases hx' : x.1 = k' <;>
          simp [List.filter_cons, hx, hx', ih, h]
  have h3 : ¬ ((k, v).1 = k') := fun hk => h hk.symm
  simp [headerSet, headerValues, List.filter_append, List.map_append,
    List.filter_cons, h2, h3]

theorem addAll_eq (hs : Headers) (k : String) (vs : List String) :
    addAll hs k vs = hs ++ vs.map (fun v => (k, v)) := by
  induction vs generalizing hs with
  | nil => simp [addAll]
  | cons x xs ih =>
    simp only [addAll, List.foldl_cons] at *
    rw [ih, headerAdd, List.append_assoc]
    rfl

theorem headerValues_map_self (k : String) (vs : List String) :
    headerValues (vs.map fun v => (k, v)) k = vs := by
  induction vs with
  | nil => rfl
  | cons x xs ih =>
    simp only [List.map_cons, headerValues, List.filter_cons] at *
    simp [ih]

theorem headerValues_map_ne (k k' : String) (h : k' ≠ k) (vs : List String) :
    headerValues (vs.map fun v => (k, v)) k' = [] := by
  induction vs with
  | nil => rfl
  | cons x xs ih =>
    have hk : ¬ ((k, x).1 = k') := fun hk => h hk.symm
    simp only [List.map_cons, headerValues, List.filter_cons] at *
    simp [hk, ih]

theorem headerValues_addAll_self (hs : Headers) (k : String) (vs : List String) :
    headerValues (addAll hs k vs) k = headerValues hs k ++ vs := by
  rw [addAll_eq, headerValues_append, headerValues_map_self]

theorem headerValues_addAll_ne (hs : Headers) (k : String) (vs : List String)
    (k' : String) (h : k' ≠ k) :
    headerValues (addAll hs k vs) k' = headerValues hs k' := by
  rw [addAll_eq, headerValues_append, headerValues_map_ne k k' h]
  simp

theorem headerValues_nil (k : String) : headerValues [] k = [] := rfl

/-! ### The middleware state and the derived maps -/

theorem headersMap_setMethods (mw : CorsMiddleware) (x : Option (List String)) :
    CorsMiddleware.headersMap { mw with allowedMethods := x } = mw.headersMap := rfl

theorem methodsMap_eq_derived {mw : CorsMiddleware} (h : mw.Inv) :
    mw.methodsMap = derivedMethods mw := by
  rcases h.1 with h1 | h1 <;> simp [CorsMiddleware.methodsMap, h1]

theorem headersMap_eq_derived {mw : CorsMiddleware} (h : mw.Inv) :
    mw.headersMap = derivedHeaders mw := by
  rcases h.2 with h1 | h1 <;> simp [CorsMiddleware.headersMap, h1]

theorem anyBadHeader_eq_false {m l : List String} :
    (l.any fun h => mapLookup m h == false) = false ↔ ∀ h ∈ l, h ∈ m := by
  simp [mapLookup]

theorem anyBadHeader_eq_true {m l : List String} :
    (l.any fun h => mapLookup m h == false) = true ↔ ∃ h ∈ l, h ∉ m := by
  simp [mapLookup]

/-! ### Branch characterisations of the handler -/

theorem handleCors_nonCors_reject (mw : CorsMiddleware) (req : Request)
    (ci : CorsInfo) (hc : ci.IsCors = false)
    (hr : mw.RejectNonCorsRequests = true) :
    mw.handleCors req ci = Error mw "Non CORS request" 403 := by
  simp [CorsMiddleware.handleCors, hc, hr]

theorem handleCors_nonCors_pass (mw : CorsMiddleware) (req : Request)
    (ci : CorsInfo) (hc : ci.IsCors = false)
    (hr : mw.RejectNonCorsRequests = false) :
    mw.handleCors req ci =
      { mw := mw, headers := [], status := none, body := none,
        invokedNext := true } := by
  simp [CorsMiddleware.handleCors, hc, hr]

theorem handleCors_invalidOrigin (mw : CorsMiddleware) (req : Request)
    (ci : CorsInfo) (hc : ci.IsCors = true)
    (hv : mw.OriginValidator ci.Origin req = false) :
    mw.handleCors req ci = Error mw "Invalid Origin" 403 := by
  simp [CorsMiddleware.handleCors, hc, hv]

theorem handleCors_badMethod (mw : CorsMiddleware) (req : Request)
    (ci : CorsInfo) (hc : ci.IsCors = true)
    (hv : mw.OriginValidator ci.Origin req = true)
    (hp : ci.IsPreflight = true)
    (hm : mapLookup mw.methodsMap ci.AccessControlRequestMethod = false) :
    mw.handleCors req ci =
      Error { mw with allowedMethods := some mw.methodsMap }
        "Invalid Preflight Request" 403 := by
  simp [CorsMiddleware.handleCors, hc, hv, hp, hm]

theorem handleCors_badHeader (mw : CorsMiddleware) (req : Request)
    (ci : CorsInfo) (hc : ci.IsCors = true)
    (hv : mw.OriginValidator ci.Origin req = true)
    (hp : ci.IsPreflight = true)
    (hm : mapLookup mw.methodsMap ci.AccessControlRequestMethod = true)
    (hh : (ci.AccessControlRequestHeaders.any
        fun h => mapLookup mw.headersMap h == false) = true) :
    mw.handleCors req ci =
      Error { mw with allowedMethods := some mw.methodsMap,
                      allowedHeaders := some mw.headersMap }
        "Invalid Preflight Request" 403 := by
  simp [CorsMiddleware.handleCors, hc, hv, hp, hm, headersMap_setMethods, hh]
  intro hall
  exfalso
  rw [anyBadHeader_eq_true] at hh
  obtain ⟨x, hx, hnx⟩ := hh
  exact hnx (mapLookup_eq_true.mp (hall x hx))

theorem handleCors_preflight_ok (mw : CorsMiddleware) (req : Request)
    (ci : CorsInfo) (hc : ci.IsCors = true)
    (hv : mw.OriginValidator ci.Origin req = true)
    (hp : ci.IsPreflight = true)
    (hm : mapLookup mw.methodsMap ci.AccessControlRequestMethod = true)
    (hh : (ci.AccessControlRequestHeaders.any
        fun h => mapLookup mw.headersMap h == false) = false) :
    mw.handleCors req ci =
      { mw := { mw with allowedMethods := some mw.methodsMap,
                        allowedHeaders := some mw.headersMap },
        headers := preflightOkHeaders mw.methodsMap mw.headersMap ci.Origin
          mw.AccessControlAllowCredentials mw.AccessControlMaxAge,
        status := some 200, body := none, invokedNext := false } := by
  simp [CorsMiddleware.handleCors, hc, hv, hp, hm, headersMap_setMethods, hh,
    preflightOkHeaders]
  intro x hx hfalse
  exfalso
  rw [anyBadHeader_eq_false] at hh
  exact absurd (hh x hx) (mapLookup_eq_false.mp hfalse)

theorem handleCors_simple (mw : CorsMiddleware) (req : Request)
    (ci : CorsInfo) (hc : ci.IsCors = true)
    (hv : mw.OriginValidator ci.Origin req = true)
    (hp : ci.IsPreflight = false) :
    mw.handleCors req ci =
      { mw := mw,
        headers := simpleHeaders ci.Origin mw.AccessControlAllowCredentials,
        status := none, body := none, invokedNext := true } := by
  simp [CorsMiddleware.handleCors, hc, hv, hp, simpleHeaders]

/-! ### The headers each successful branch carries -/

theorem preflightOkHeaders_methods (methods hdrs : List String)
    (origin : String) (creds : Bool) (maxAge : Int) :
    headerValues (preflightOkHeaders methods hdrs origin creds maxAge)
      "Access-Control-Allow-Methods" = methods := by
  unfold preflightOkHeaders
  cases creds <;>
    simp +decide [headerValues_headerSet_ne, headerValues_addAll_ne,
      headerValues_addAll_self, headerValues_nil]

theorem preflightOkHeaders_headers (methods hdrs : List String)
    (origin : String) (creds : Bool) (maxAge : Int) :
    headerValues (preflightOkHeaders methods hdrs origin creds maxAge)
      "Access-Control-Allow-Headers" = hdrs := by
  unfold preflightOkHeaders
  cases creds <;>
    simp +decide [headerValues_headerSet_ne, headerValues_addAll_ne,
      headerValues_addAll_self, headerValues_nil]

theorem preflightOkHeaders_maxAge (methods hdrs : List String)
    (origin : String) (creds : Bool) (maxAge : Int) :
    headerValues (preflightOkHeaders methods hdrs origin creds maxAge)
      "Access-Control-Max-Age" = [goStringOfInt maxAge] := by
  unfold preflightOkHeaders
  cases creds <;> simp [headerValues_headerSet_self]

theorem preflightOkHeaders_origin (methods hdrs : List String)
    (origin : String) (creds : Bool) (maxAge : Int) :
    headerValues (preflightOkHeaders methods hdrs origin creds maxAge)
      "Access-Control-Allow-Origin" = [origin] := by
  unfold preflightOkHeaders
  cases creds <;>
    simp +decide [headerValues_headerSet_ne, headerValues_headerSet_self]

theorem simpleHeaders_origin (origin : String) (creds : Bool) :
    headerValues (simpleHeaders origin creds)
      "Access-Control-Allow-Origin" = [origin] := by
  unfold simpleHeaders
  cases creds <;>
    simp +decide [headerValues_headerSet_ne, headerValues_headerSet_self]

theorem simpleHeaders_expose (origin : String) (creds : Bool) :
    headerValues (simpleHeaders origin creds)
      "Access-Control-Expose-Headers" = ["X-Powered-By"] := by
  unfold simpleHeaders
  cases creds <;>
    simp +decide [headerValues_headerSet_ne, headerValues_headerSet_self]

/-- In every branch, the receiver after the call is the receiver before
it, with possibly one or both maps materialised to the map the call
consulted. -/
theorem handleCors_mw_cases (mw : CorsMiddleware) (req : Request)
    (ci : CorsInfo) :
    (mw.handleCors req ci).mw = mw ∨
    (mw.handleCors req ci).mw = { mw with allowedMethods := some mw.methodsMap } ∨
    (mw.handleCors req ci).mw =
      { mw with allowedMethods := some mw.methodsMap,
                allowedHeaders := some mw.headersMap } := by
  cases hc : ci.IsCors with
  | false =>
    cases hr : mw.RejectNonCorsRequests with
    | true => rw [handleCors_nonCors_reject mw req ci hc hr]; exact Or.inl rfl
    | false => rw [handleCors_nonCors_pass mw req ci hc hr]; exact Or.inl rfl
  | true =>
    cases hv : mw.OriginValidator ci.Origin req with
    | false => rw [handleCors_invalidOrigin mw req ci hc hv]; exact Or.inl rfl
    | true =>
      cases hp : ci.IsPreflight with
      | false => rw [handleCors_simple mw req ci hc hv hp]; exact Or.inl rfl
      | true =>
        cases hm : mapLookup mw.methodsMap ci.AccessControlRequestMethod with
        | false =>
          rw [handleCors_badMethod mw req ci hc hv hp hm]
          exact Or.inr (Or.inl rfl)
        | true =>
          cases hh : ci.AccessControlRequestHeaders.any
              (fun h => mapLookup mw.headersMap h == false) with
          | true =>
            rw [handleCors_badHeader mw req ci hc hv hp hm hh]
            exact Or.inr (Or.inr rfl)
          | false =>
            rw [handleCors_preflight_ok mw req ci hc hv hp hm hh]
            exact Or.inr (Or.inr rfl)

/-! ### The claims -/

/-- C1: for every preflight request (`isCors` true, origin accepted by
the validator, `isPreflight` true) whose requested method and requested
headers are all whitelisted, the handler responds with status 200
without invoking the continuation, and the multi-valued
`Access-Control-Allow-Methods` header it emits equals, as a set
(order-independent), exactly the upper-cased configured allowed-methods
set. -/
theorem C1_preflight_allow_methods_set (mw : CorsMiddleware)
    (req : Request) (ci : CorsInfo) (hinv : mw.Inv)
    (hc : ci.IsCors = true)
    (hv : mw.OriginValidator ci.Origin req = true)
    (hp : ci.IsPreflight = true)
    (hm : ci.AccessControlRequestMethod ∈ derivedMethods mw)
    (hh : ∀ h ∈ ci.AccessControlRequestHeaders, h ∈ derivedHeaders mw) :
    (mw.handleCors req ci).status = some 200 ∧
    (mw.handleCors req ci).invokedNext = false ∧
    ∀ v, v ∈ headerValues (mw.handleCors req ci).headers
        "Access-Control-Allow-Methods" ↔
      ∃ a ∈ mw.AllowedMethods, toUpper a = v := by
  have hm' : mapLookup mw.methodsMap ci.AccessControlRequestMethod = true := by
    rw [methodsMap_eq_derived hinv, mapLookup_eq_true]; exact hm
  have hh' : (ci.AccessControlRequestHeaders.any
      fun h => mapLookup mw.headersMap h == false) = false := by
    rw [anyBadHeader_eq_false]
    intro h hmem; rw [headersMap_eq_derived hinv]; exact hh h hmem
  rw [handleCors_preflight_ok mw req ci hc hv hp hm' hh']
  refine ⟨rfl, rfl, fun v => ?_⟩
  show v ∈ headerValues (preflightOkHeaders mw.methodsMap mw.headersMap
    ci.Origin mw.AccessControlAllowCredentials mw.AccessControlMaxAge)
    "Access-Control-Allow-Methods" ↔ _
  rw [preflightOkHeaders_methods, methodsMap_eq_derived hinv,
    mem_derivedMethods]

/-- C4: for every CORS request whose origin the configured validator
rejects, the handler responds with 403 Forbidden and body
`Invalid Origin`, and the continuation is never invoked. -/
theorem C4_invalid_origin_rejected (mw : CorsMiddleware) (req : Request)
    (ci : CorsInfo) (hc : ci.IsCors = true)
    (hv : mw.OriginValidator ci.Origin req = false) :
    (mw.handleCors req ci).status = some 403 ∧
    (mw.handleCors req ci).body = some "Invalid Origin" ∧
    (mw.handleCors req ci).invokedNext = false := by
  rw [handleCors_invalidOrigin mw req ci hc hv]
  exact ⟨rfl, rfl, rfl⟩

/-- C6: for every non-CORS request, if `RejectNonCorsRequests` is set
the handler responds 403 with body `Non CORS request` and never invokes
the continuation; otherwise it invokes the continuation; in both
branches it adds no CORS headers at all. -/
theorem C6_non_cors_requests (mw : CorsMiddleware) (req : Request)
    (ci : CorsInfo) (hc : ci.IsCors = false) :
    (mw.RejectNonCorsRequests = true →
      (mw.handleCors req ci).status = some 403 ∧
      (mw.handleCors req ci).body = some "Non CORS request" ∧
      (mw.handleCors req ci).invokedNext = false ∧
      (mw.handleCors req ci).headers = []) ∧
    (mw.RejectNonCorsRequests = false →
      (mw.handleCors req ci).invokedNext = true ∧
      (mw.handleCors req ci).status = none ∧
      (mw.handleCors req ci).body = none ∧
      (mw.handleCors req ci).headers = []) := by
  constructor
  · intro hr
    rw [handleCors_nonCors_reject mw req ci hc hr]
    exact ⟨rfl, rfl, rfl, rfl⟩
  · intro hr
    rw [handleCors_nonCors_pass mw req ci hc hr]
    exact ⟨rfl, rfl, rfl, rfl⟩

/-- C7: for every simple (non-preflight) CORS request whose origin the
validator accepts, the `Access-Control-Allow-Origin` response header
carries exactly the request's `Origin` value as its single value (so it
is never omitted, and it is never the wildcard unless the origin itself
is), and the continuation is then invoked. -/
theorem C7_simple_origin_echo (mw : CorsMiddleware) (req : Request)
    (ci : CorsInfo) (hc : ci.IsCors = true)
    (hv : mw.OriginValidator ci.Origin req = true)
    (hp : ci.IsPreflight = false) :
    headerValues (mw.handleCors req ci).headers
      "Access-Control-Allow-Origin" = [ci.Origin] ∧
    (ci.Origin ≠ "*" →
      "*" ∉ headerValues (mw.handleCors req ci).headers
        "Access-Control-Allow-Origin") ∧
    (mw.handleCors req ci).invokedNext = true := by
  have heq : headerValues (mw.handleCors req ci).headers
      "Access-Control-Allow-Origin" = [ci.Origin] := by
    rw [handleCors_simple mw req ci hc hv hp]
    exact simpleHeaders_origin ci.Origin mw.AccessControlAllowCredentials
  refine ⟨heq, ?_, ?_⟩
  · intro hne hmem
    rw [heq] at hmem
    simp at hmem
    exact hne hmem.symm
  · rw [handleCors_simple mw req ci hc hv hp]

/-- C2 (refuted, code bug): `cors.go` line 102 applies Go's `string(int)`
conversion to `AccessControlMaxAge`, so on a successful preflight with
the configured max age 3600 the emitted `Access-Control-Max-Age` value
is the single character U+0E10 — not the decimal numeral `3600` that
the field's own doc comment and the spec intend. -/
theorem C2_maxAge_not_decimal_string :
    headerValues (mwEx.handleCors reqPf ciPf).headers
      "Access-Control-Max-Age" = [String.mk [Char.ofNat 3600]] ∧
    String.mk [Char.ofNat 3600] ≠ "3600" := by
  constructor
  · decide
  · decide

/-- C3: for every preflight request with an accepted origin, membership
of the requested method in the allowed-methods set is decided on the
upper-cased requested method (the spec-modelled `GetCorsInfo` delivers
it upper-cased and `MiddlewareFunc` looks it up verbatim): a requested
method differing from a configured allowed method only in letter case
is accepted, and one whose upper-cased form is not in the set is
rejected with 403 `Invalid Preflight Request` without invoking the
continuation. -/
theorem C3_method_case_insensitive (mw : CorsMiddleware) (req : Request)
    (hinv : mw.Inv)
    (hc : (GetCorsInfo req).IsCors = true)
    (hv : mw.OriginValidator (GetCorsInfo req).Origin req = true)
    (hp : (GetCorsInfo req).IsPreflight = true) :
    (mapLookup mw.methodsMap
        (GetCorsInfo req).AccessControlRequestMethod = true ↔
      ∃ a ∈ mw.AllowedMethods, toUpper a = toUpper req.ACRMHdr) ∧
    ((∃ a ∈ mw.AllowedMethods, toUpper a = toUpper req.ACRMHdr) →
      (∀ h ∈ (GetCorsInfo req).AccessControlRequestHeaders,
        h ∈ derivedHeaders mw) →
      (mw.middlewareFunc req).status = some 200 ∧
      (mw.middlewareFunc req).invokedNext = false) ∧
    ((¬ ∃ a ∈ mw.AllowedMethods, toUpper a = toUpper req.ACRMHdr) →
      (mw.middlewareFunc req).status = some 403 ∧
      (mw.middlewareFunc req).body = some "Invalid Preflight Request" ∧
      (mw.middlewareFunc req).invokedNext = false) := by
  have hiff : mapLookup mw.methodsMap
      (GetCorsInfo req).AccessControlRequestMethod = true ↔
      ∃ a ∈ mw.AllowedMethods, toUpper a = toUpper req.ACRMHdr := by
    rw [methodsMap_eq_derived hinv, mapLookup_eq_true]
    simp only [GetCorsInfo]
    exact mem_derivedMethods
  refine ⟨hiff, ?_, ?_⟩
  · intro hex hall
    have hm' := hiff.mpr hex
    have hh' : ((GetCorsInfo req).AccessControlRequestHeaders.any
        fun h => mapLookup mw.headersMap h == false) = false := by
      rw [anyBadHeader_eq_false]
      intro h hmem
      rw [headersMap_eq_derived hinv]
      exact hall h hmem
    unfold CorsMiddleware.middlewareFunc
    rw [handleCors_preflight_ok mw req (GetCorsInfo req) hc hv hp hm' hh']
    exact ⟨rfl, rfl⟩
  · intro hnex
    have hm' : mapLookup mw.methodsMap
        (GetCorsInfo req).AccessControlRequestMethod = false := by
      cases hb : mapLookup mw.methodsMap
        (GetCorsInfo req).AccessControlRequestMethod
      · rfl
      · exact absurd (hiff.mp hb) hnex
    unfold CorsMiddleware.middlewareFunc
    rw [handleCors_badMethod mw req (GetCorsInfo req) hc hv hp hm']
    exact ⟨rfl, rfl, rfl⟩

/-- C5: for every preflight request with an accepted origin and a
whitelisted method, if some entry of the (canonical-cased, per the
spec-modelled `GetCorsInfo`) requested headers is not in the
allowed-headers set the handler responds 403 `Invalid Preflight
Request` without invoking the continuation; if every entry is in the
set (in particular when the list is empty) the check passes and the
preflight succeeds. -/
theorem C5_headers_whitelist (mw : CorsMiddleware) (req : Request)
    (hinv : mw.Inv)
    (hc : (GetCorsInfo req).IsCors = true)
    (hv : mw.OriginValidator (GetCorsInfo req).Origin req = true)
    (hp : (GetCorsInfo req).IsPreflight = true)
    (hm : (GetCorsInfo req).AccessControlRequestMethod ∈ derivedMethods mw) :
    ((∃ h ∈ (GetCorsInfo req).AccessControlRequestHeaders,
        h ∉ derivedHeaders mw) →
      (mw.middlewareFunc req).status = some 403 ∧
      (mw.middlewareFunc req).body = some "Invalid Preflight Request" ∧
      (mw.middlewareFunc req).invokedNext = false) ∧
    ((∀ h ∈ (GetCorsInfo req).AccessControlRequestHeaders,
        h ∈ derivedHeaders mw) →
      (mw.middlewareFunc req).status = some 200 ∧
      (mw.middlewareFunc req).invokedNext = false) := by
  have hm' : mapLookup mw.methodsMap
      (GetCorsInfo req).AccessControlRequestMethod = true := by
    rw [methodsMap_eq_derived hinv, mapLookup_eq_true]; exact hm
  constructor
  · intro hex
    have hh' : ((GetCorsInfo req).AccessControlRequestHeaders.any
        fun h => mapLookup mw.headersMap h == false) = true := by
      rw [anyBadHeader_eq_true, headersMap_eq_derived hinv]
      exact hex
    unfold CorsMiddleware.middlewareFunc
    rw [handleCors_badHeader mw req (GetCorsInfo req) hc hv hp hm' hh']
    exact ⟨rfl, rfl, rfl⟩
  · intro hall
    have hh' : ((GetCorsInfo req).AccessControlRequestHeaders.any
        fun h => mapLookup mw.headersMap h == false) = false := by
      rw [anyBadHeader_eq_false, headersMap_eq_derived hinv]
      exact hall
    unfold CorsMiddleware.middlewareFunc
    rw [handleCors_preflight_ok mw req (GetCorsInfo req) hc hv hp hm' hh']
    exact ⟨rfl, rfl⟩

/-- C8: handling the same successful preflight request twice in a row
on the same middleware instance (the first call possibly materialising
the derived maps) produces identical responses: same headers, same
status, same (non-)invocation of the continuation. -/
theorem C8_idempotent_preflight (mw : CorsMiddleware) (req : Request)
    (ci : CorsInfo) (hp : ci.IsPreflight = true)
    (h200 : (mw.handleCors req ci).status = some 200) :
    ((mw.handleCors req ci).mw.handleCors req ci).headers =
      (mw.handleCors req ci).headers ∧
    ((mw.handleCors req ci).mw.handleCors req ci).status =
      (mw.handleCors req ci).status ∧
    ((mw.handleCors req ci).mw.handleCors req ci).invokedNext =
      (mw.handleCors req ci).invokedNext := by
  cases hc : ci.IsCors with
  | false =>
    exfalso
    cases hr : mw.RejectNonCorsRequests with
    | true =>
      rw [handleCors_nonCors_reject mw req ci hc hr] at h200
      simp [Error] at h200
    | false =>
      rw [handleCors_nonCors_pass mw req ci hc hr] at h200
      simp at h200
  | true =>
    cases hv : mw.OriginValidator ci.Origin req with
    | false =>
      exfalso
      rw [handleCors_invalidOrigin mw req ci hc hv] at h200
      simp [Error] at h200
    | true =>
      cases hm : mapLookup mw.methodsMap ci.AccessControlRequestMethod with
      | false =>
        exfalso
        rw [handleCors_badMethod mw req ci hc hv hp hm] at h200
        simp [Error] at h200
      | true =>
        cases hh : ci.AccessControlRequestHeaders.any
            (fun h => mapLookup mw.headersMap h == false) with
        | true =>
          exfalso
          rw [handleCors_badHeader mw req ci hc hv hp hm hh] at h200
          simp [Error] at h200
        | false =>
          rw [handleCors_preflight_ok mw req ci hc hv hp hm hh]
          rw [handleCors_preflight_ok
            { mw with allowedMethods := some mw.methodsMap,
                      allowedHeaders := some mw.headersMap }
            req ci hc hv hp hm hh]
          exact ⟨rfl, rfl, rfl⟩

/-- C10: every invocation preserves the state invariant (each derived
map is `nil` or exactly the set derived from its configured list), a
populated map stays exactly as it was (so the only transition is the
one from `nil` to populated), and no public configuration field is ever
mutated. -/
theorem C10_state_invariant (mw : CorsMiddleware) (req : Request)
    (ci : CorsInfo) (hinv : mw.Inv) :
    (mw.handleCors req ci).mw.Inv ∧
    (∀ m, mw.allowedMethods = some m →
      (mw.handleCors req ci).mw.allowedMethods = some m) ∧
    (∀ m, mw.allowedHeaders = some m →
      (mw.handleCors req ci).mw.allowedHeaders = some m) ∧
    (mw.handleCors req ci).mw.RejectNonCorsRequests =
      mw.RejectNonCorsRequests ∧
    (mw.handleCors req ci).mw.OriginValidator = mw.OriginValidator ∧
    (mw.handleCors req ci).mw.AllowedMethods = mw.AllowedMethods ∧
    (mw.handleCors req ci).mw.AllowedHeaders = mw.AllowedHeaders ∧
    (mw.handleCors req ci).mw.AccessControlAllowCredentials =
      mw.AccessControlAllowCredentials ∧
    (mw.handleCors req ci).mw.AccessControlMaxAge =
      mw.AccessControlMaxAge := by
  have hde : derivedMethods { mw with allowedMethods := some mw.methodsMap } =
      derivedMethods mw := rfl
  rcases handleCors_mw_cases mw req ci with he | he | he <;> rw [he]
  · exact ⟨hinv, fun m hm => hm, fun m hm => hm, rfl, rfl, rfl, rfl, rfl, rfl⟩
  · refine ⟨⟨Or.inr ?_, ?_⟩, ?_, ?_, rfl, rfl, rfl, rfl, rfl, rfl⟩
    · show some mw.methodsMap = some (derivedMethods _)
      rw [methodsMap_eq_derived hinv]
      rfl
    · show mw.allowedHeaders = none ∨
        mw.allowedHeaders = some (derivedHeaders _)
      exact hinv.2
    · intro m hm
      show some mw.methodsMap = some m
      rw [CorsMiddleware.methodsMap, hm]
    · intro m hm
      exact hm
  · refine ⟨⟨Or.inr ?_, Or.inr ?_⟩, ?_, ?_, rfl, rfl, rfl, rfl, rfl, rfl⟩
    · show some mw.methodsMap = some (derivedMethods _)
      rw [methodsMap_eq_derived hinv]
      rfl
    · show some mw.headersMap = some (derivedHeaders _)
      rw [headersMap_eq_derived hinv]
      rfl
    · intro m hm
      show some mw.methodsMap = some m
      rw [CorsMiddleware.methodsMap, hm]
    · intro m hm
      show some mw.headersMap = some m
      rw [CorsMiddleware.headersMap, hm]

/-- C9: for every simple (non-preflight) CORS request with an accepted
origin, the `Access-Control-Expose-Headers` response header is the
fixed literal `X-Powered-By`, whatever the middleware configuration. -/
theorem C9_expose_headers_fixed (mw : CorsMiddleware) (req : Request)
    (ci : CorsInfo) (hc : ci.IsCors = true)
    (hv : mw.OriginValidator ci.Origin req = true)
    (hp : ci.IsPreflight = false) :
    headerValues (mw.handleCors req ci).headers
      "Access-Control-Expose-Headers" = ["X-Powered-By"] := by
  rw [handleCors_simple mw req ci hc hv hp]
  show headerValues (simpleHeaders ci.Origin
    mw.AccessControlAllowCredentials) "Access-Control-Expose-Headers" = _
  rw [simpleHeaders_expose]

/-! ### Witnesses: each hypothesised claim evaluated at a concrete input -/

/-- C1 witness: the sample policy and preflight view. -/
theorem C1_preflight_allow_methods_set_witness :
    (mwEx.handleCors reqPf ciPf).status = some 200 ∧
    (mwEx.handleCors reqPf ciPf).invokedNext = false ∧
    ∀ v, v ∈ headerValues (mwEx.handleCors reqPf ciPf).headers
        "Access-Control-Allow-Methods" ↔
      ∃ a ∈ mwEx.AllowedMethods, toUpper a = v :=
  C1_preflight_allow_methods_set mwEx reqPf ciPf ⟨Or.inl rfl, Or.inl rfl⟩
    rfl rfl rfl (by decide) (by decide)

/-- C3 witness: the raw sample request asks for method `post`, which
differs from the configured `POST` only in case. -/
theorem C3_method_case_insensitive_witness :
    (mapLookup mwEx.methodsMap
        (GetCorsInfo reqPf).AccessControlRequestMethod = true ↔
      ∃ a ∈ mwEx.AllowedMethods, toUpper a = toUpper reqPf.ACRMHdr) ∧
    ((∃ a ∈ mwEx.AllowedMethods, toUpper a = toUpper reqPf.ACRMHdr) →
      (∀ h ∈ (GetCorsInfo reqPf).AccessControlRequestHeaders,
        h ∈ derivedHeaders mwEx) →
      (mwEx.middlewareFunc reqPf).status = some 200 ∧
      (mwEx.middlewareFunc reqPf).invokedNext = false) ∧
    ((¬ ∃ a ∈ mwEx.AllowedMethods, toUpper a = toUpper reqPf.ACRMHdr) →
      (mwEx.middlewareFunc reqPf).status = some 403 ∧
      (mwEx.middlewareFunc reqPf).body = some "Invalid Preflight Request" ∧
      (mwEx.middlewareFunc reqPf).invokedNext = false) :=
  C3_method_case_insensitive mwEx reqPf ⟨Or.inl rfl, Or.inl rfl⟩
    (by decide) rfl (by decide)

/-- C4 witness: the reject-all validator at the sample simple CORS
view. -/
theorem C4_invalid_origin_rejected_witness :
    (mwValFalseEx.handleCors reqPf ciSimple).status = some 403 ∧
    (mwValFalseEx.handleCors reqPf ciSimple).body = some "Invalid Origin" ∧
    (mwValFalseEx.handleCors reqPf ciSimple).invokedNext = false :=
  C4_invalid_origin_rejected mwValFalseEx reqPf ciSimple rfl rfl

/-- C5 witness: the sample preflight request (requested header
`x-custom`, canonicalised to the whitelisted `X-Custom`). -/
theorem C5_headers_whitelist_witness :
    ((∃ h ∈ (GetCorsInfo reqPf).AccessControlRequestHeaders,
        h ∉ derivedHeaders mwEx) →
      (mwEx.middlewareFunc reqPf).status = some 403 ∧
      (mwEx.middlewareFunc reqPf).body = some "Invalid Preflight Request" ∧
      (mwEx.middlewareFunc reqPf).invokedNext = false) ∧
    ((∀ h ∈ (GetCorsInfo reqPf).AccessControlRequestHeaders,
        h ∈ derivedHeaders mwEx) →
      (mwEx.middlewareFunc reqPf).status = some 200 ∧
      (mwEx.middlewareFunc reqPf).invokedNext = false) :=
  C5_headers_whitelist mwEx reqPf ⟨Or.inl rfl, Or.inl rfl⟩
    (by decide) rfl (by decide) (by decide)

/-- C6 witness: the rejecting configuration at the sample non-CORS
view. -/
theorem C6_non_cors_requests_witness :
    (mwRejectEx.RejectNonCorsRequests = true →
      (mwRejectEx.handleCors reqPf ciNonCors).status = some 403 ∧
      (mwRejectEx.handleCors reqPf ciNonCors).body = some "Non CORS request" ∧
      (mwRejectEx.handleCors reqPf ciNonCors).invokedNext = false ∧
      (mwRejectEx.handleCors reqPf ciNonCors).headers = []) ∧
    (mwRejectEx.RejectNonCorsRequests = false →
      (mwRejectEx.handleCors reqPf ciNonCors).invokedNext = true ∧
      (mwRejectEx.handleCors reqPf ciNonCors).status = none ∧
      (mwRejectEx.handleCors reqPf ciNonCors).body = none ∧
      (mwRejectEx.handleCors reqPf ciNonCors).headers = []) :=
  C6_non_cors_requests mwRejectEx reqPf ciNonCors rfl

/-- C7 witness: the sample simple CORS view under the accept-all
policy. -/
theorem C7_simple_origin_echo_witness :
    headerValues (mwEx.handleCors reqPf ciSimple).headers
      "Access-Control-Allow-Origin" = [ciSimple.Origin] ∧
    (ciSimple.Origin ≠ "*" →
      "*" ∉ headerValues (mwEx.handleCors reqPf ciSimple).headers
        "Access-Control-Allow-Origin") ∧
    (mwEx.handleCors reqPf ciSimple).invokedNext = true :=
  C7_simple_origin_echo mwEx reqPf ciSimple rfl rfl rfl

/-- C8 witness: the sample successful preflight handled twice. -/
theorem C8_idempotent_preflight_witness :
    ((mwEx.handleCors reqPf ciPf).mw.handleCors reqPf ciPf).headers =
      (mwEx.handleCors reqPf ciPf).headers ∧
    ((mwEx.handleCors reqPf ciPf).mw.handleCors reqPf ciPf).status =
      (mwEx.handleCors reqPf ciPf).status ∧
    ((mwEx.handleCors reqPf ciPf).mw.handleCors reqPf ciPf).invokedNext =
      (mwEx.handleCors reqPf ciPf).invokedNext :=
  C8_idempotent_preflight mwEx reqPf ciPf rfl (by decide)

/-- C9 witness: the sample simple CORS view. -/
theorem C9_expose_headers_fixed_witness :
    headerValues (mwEx.handleCors reqPf ciSimple).headers
      "Access-Control-Expose-Headers" = ["X-Powered-By"] :=
  C9_expose_headers_fixed mwEx reqPf ciSimple rfl rfl rfl

/-- C10 witness: the sample policy (maps not yet materialised) on the
sample preflight view. -/
theorem C10_state_invariant_witness :
    (mwEx.handleCors reqPf ciPf).mw.Inv ∧
    (∀ m, mwEx.allowedMethods = some m →
      (mwEx.handleCors reqPf ciPf).mw.allowedMethods = some m) ∧
    (∀ m, mwEx.allowedHeaders = some m →
      (mwEx.handleCors reqPf ciPf).mw.allowedHeaders = some m) ∧
    (mwEx.handleCors reqPf ciPf).mw.RejectNonCorsRequests =
      mwEx.RejectNonCorsRequests ∧
    (mwEx.handleCors reqPf ciPf).mw.OriginValidator = mwEx.OriginValidator ∧
    (mwEx.handleCors reqPf ciPf).mw.AllowedMethods = mwEx.AllowedMethods ∧
    (mwEx.handleCors reqPf ciPf).mw.AllowedHeaders = mwEx.AllowedHeaders ∧
    (mwEx.handleCors reqPf ciPf).mw.AccessControlAllowCredentials =
      mwEx.AccessControlAllowCredentials ∧
    (mwEx.handleCors reqPf ciPf).mw.AccessControlMaxAge =
      mwEx.AccessControlMaxAge :=
  C10_state_invariant mwEx reqPf ciPf ⟨Or.inl rfl, Or.inl rfl⟩

end rest
